import Mathlib

/-!
Verification of the playback/timeline/export core of the WeChat-conversation
animation tool.

The development shallowly embeds the TypeScript source:

* `src/lib/timelineCalculator.ts` — the `TimelineCalculator` class
  (duration resolution, timeline segments, time ↔ message-index mapping);
* `src/hooks/usePlaybackState.ts` — the `PlaybackStateManager` class
  (its own duration resolution, playback state machine, history);
* the export engine module (`ExportEngine`) and the export worker
  (progress-percentage arithmetic and the busy guard).

Conventions of the embedding:

* JS `number` values (milliseconds, speeds, percentages) are modelled as `ℚ`;
  all concrete values appearing in the code are exactly representable.
* JS strings are processed as `List Char`; `String.prototype.toLowerCase` is
  modelled by `Char.toLower` (the inputs are ASCII or Chinese, where the two
  agree) and `\s` by `Char.isWhitespace`.
* The classes hold their configuration at the default values
  (`DEFAULT_CONFIG` in `timelineCalculator.ts`; inlined literals in
  `usePlaybackState.ts`); the defaults are inlined here, mirroring how every
  call site in the repository constructs the objects.
* `setTimeout` callbacks are not run: the manager model records the pending
  timer delay in a `timer` field (`none` = no pending timer) and counts
  `onAnimationComplete` invocations, so that the synchronous effect of each
  public method is a pure function on a `ManagerState`.
* The synchronous call graph `seekToMessage → startAnimationLoop →
  playNextMessage → seekToMessage` can genuinely diverge in the source
  (e.g. loop mode with at most one message); the mutual recursion is
  therefore indexed by fuel, `none` meaning the source would not return.
-/

set_option maxRecDepth 4000

namespace FakeWeChat

/-- The discriminated message category (`Message.type` in
`ChatInterface.tsx`); the field is optional in the source, and an absent
type behaves like `'message'` everywhere the claims touch. -/
inductive MType where
  | message
  | pause
  | typing
  | location
  | voice
  | image
  | recall
deriving DecidableEq, Repr

/-- The message record (`Message` in `ChatInterface.tsx`), restricted to the
fields the timeline/playback core reads. -/
structure Message where
  speaker : Option String := none
  content : Option String := none
  type : Option MType := none
  duration : Option String := none
  voiceDuration : Option String := none
  statusDuration : Option String := none
  animationDelay : Option String := none
  recallDelay : Option String := none
deriving DecidableEq, Inhabited, Repr

/-- JS truthiness of an optional string field (`undefined` and `""` are
falsy). -/
def jsTruthy : Option String → Bool
  | none => false
  | some s => s ≠ ""

/-- `duration.toLowerCase().replace(/\s+/g, '')` — the key normalisation both
`parseDescriptiveTime` implementations apply before the map lookup. -/
def normalizeDuration (s : String) : List Char :=
  (s.data.map Char.toLower).filter (fun c => !c.isWhitespace)

/-- Time units recognised by the duration regex
`/(\d+\.?\d*)\s*(秒|s|sec|second|分钟|m|min|minute|小时|h|hour)?/i`. -/
inductive TimeUnit where
  | sec
  | min
  | hour
deriving DecidableEq, Repr

/-- Millisecond factor of a captured unit; an absent capture defaults to
seconds (`match[2] || 's'`). -/
def TimeUnit.factor : Option TimeUnit → ℚ
  | none => 1000
  | some .sec => 1000
  | some .min => 60 * 1000
  | some .hour => 60 * 60 * 1000

/-- The unit alternation of the regex, tried at the position following the
number: `秒|s|sec|second|分钟|m|min|minute|小时|h|hour` (case-insensitive).
Because alternatives are tried left to right, `s` shadows `sec`/`second`,
`m` shadows `min`/`minute` and `h` shadows `hour`, so only the leading
character (or the two-character Chinese words) decides. -/
def matchTimeUnit : List Char → Option TimeUnit
  | [] => none
  | c :: cs =>
    if c = '秒' then some .sec
    else if c.toLower = 's' then some .sec
    else if c = '分' ∧ cs.headD ' ' = '钟' then some .min
    else if c.toLower = 'm' then some .min
    else if c = '小' ∧ cs.headD ' ' = '时' then some .hour
    else if c.toLower = 'h' then some .hour
    else none

/-- Numeric value of a digit list (most significant first). -/
def digitsVal (ds : List Char) : ℕ :=
  ds.foldl (fun acc c => acc * 10 + (c.toNat - '0'.toNat)) 0

/-- `parseFloat` of the capture `\d+\.?\d*` starting at a digit: an integer
part, an optional dot, an optional fraction. Returns the value and the
remaining characters. -/
def parseJsNumber (cs : List Char) : ℚ × List Char :=
  let intPart := cs.takeWhile Char.isDigit
  let rest := cs.dropWhile Char.isDigit
  match rest with
  | '.' :: rest' =>
    let fracPart := rest'.takeWhile Char.isDigit
    let rest'' := rest'.dropWhile Char.isDigit
    ((digitsVal intPart : ℚ) + (digitsVal fracPart : ℚ) / (10 : ℚ) ^ fracPart.length, rest'')
  | _ => ((digitsVal intPart : ℚ), rest)

/-- The regex is unanchored, so the match starts at the first digit of the
string; no digit means no match. -/
def findFirstNumber : List Char → Option (ℚ × List Char)
  | [] => none
  | c :: cs => if c.isDigit then some (parseJsNumber (c :: cs)) else findFirstNumber cs

/-- `duration.match(/(\d+\.?\d*)\s*(unit)?/i)` followed by the unit switch:
the matched number converted to milliseconds, `none` when the regex does not
match. Both `parseDescriptiveTime` implementations contain this identical
regex block. -/
def jsDurationMatchMs (s : String) : Option ℚ :=
  match findFirstNumber s.data with
  | none => none
  | some (value, rest) =>
    let unit := matchTimeUnit (rest.dropWhile Char.isWhitespace)
    some (value * TimeUnit.factor unit)

namespace TimelineCalculator

/-- `DEFAULT_CONFIG.baseMessageDelay`. -/
def baseMessageDelay : ℚ := 1500

/-- `DEFAULT_CONFIG.descriptiveTimeMap` (keys normalised as the lookup sees
them). -/
def descriptiveTimeMap : List (List Char × ℚ) :=
  [("稍后".data, 2000), ("片刻后".data, 3000), ("一会儿后".data, 4000),
   ("很久之后".data, 8000), ("许久之后".data, 10000),
   ("短".data, 1000), ("short".data, 1000),
   ("中".data, 3000), ("medium".data, 3000),
   ("长".data, 5000), ("long".data, 5000),
   ("极短".data, 500), ("very-short".data, 500),
   ("极长".data, 10000), ("very-long".data, 10000)]

/-- `TimelineCalculator.parseDescriptiveTime` (timelineCalculator.ts
121–158): falsy input → base delay; then the descriptive map; then the
number+unit regex; unmatched input → base delay. No compression. -/
def parseDescriptiveTime (duration : Option String) : ℚ :=
  if ¬jsTruthy duration then baseMessageDelay
  else
    let d := duration.getD ""
    match descriptiveTimeMap.lookup (normalizeDuration d) with
    | some v => v
    | none =>
      match jsDurationMatchMs d with
      | some ms => ms
      | none => baseMessageDelay

/-- `TimelineCalculator.parseVoiceDuration`: first digit run of the string
(the `/(\d+)[""]?/` match) times 1000, default 3000. -/
def parseVoiceDuration (voiceDuration : Option String) : ℚ :=
  match voiceDuration with
  | none => 3000
  | some s =>
    match (s.data.dropWhile (fun c => !c.isDigit)).takeWhile Char.isDigit with
    | [] => 3000
    | ds => (digitsVal ds : ℚ) * 1000

/-- `TimelineCalculator.calculateMessageDuration` (timelineCalculator.ts
163–214) with the default config. -/
def calculateMessageDuration (m : Message) : ℚ :=
  match m.type with
  | some .pause => parseDescriptiveTime m.duration
  | some .typing =>
    let content := (m.content.getD "").length
    let calculatedDuration := max 1000 (min 8000 ((content : ℚ) / 3 * 1000))
    if jsTruthy m.statusDuration then
      match m.statusDuration.getD "" with
      | "short" => 1000
      | "medium" => 3000
      | "long" => 5000
      | _ => calculatedDuration
    else calculatedDuration
  | some .voice => parseVoiceDuration m.voiceDuration + 2000
  | some .image => 2500
  | some .location => 2000
  | some .recall =>
    let r := parseDescriptiveTime m.recallDelay
    if r = 0 then 1000 else r
  | _ =>
    if jsTruthy m.animationDelay then parseDescriptiveTime m.animationDelay
    else
      let contentLength := (m.content.getD "").length
      baseMessageDelay + min ((contentLength : ℚ) * 50) 2000

/-- Segment categories (`TimelineSegment['type']`). -/
inductive SegmentType where
  | message
  | pause
  | typing
  | animation
  | status
deriving DecidableEq, Repr

/-- `TimelineCalculator.getSegmentType`. -/
def getSegmentType (m : Message) : SegmentType :=
  match m.type with
  | some .pause => .pause
  | some .typing => .typing
  | some .recall => .animation
  | _ => .message

/-- A timeline segment (`TimelineSegment`), without the display-only
`metadata` record. -/
structure TimelineSegment where
  startTime : ℚ
  endTime : ℚ
  messageIndex : ℕ
  type : SegmentType
  duration : ℚ
deriving DecidableEq, Repr

instance : Inhabited TimelineSegment :=
  ⟨⟨0, 0, 0, .message, 0⟩⟩

/-- The segment-building loop of `TimelineCalculator.calculateTimeline`
(timelineCalculator.ts 234–270), carrying the running index and
`currentTime` accumulator. -/
def segmentsFrom : List Message → ℕ → ℚ → List TimelineSegment
  | [], _, _ => []
  | m :: rest, i, currentTime =>
    let duration := calculateMessageDuration m
    { startTime := currentTime, endTime := currentTime + duration,
      messageIndex := i, type := getSegmentType m, duration := duration }
      :: segmentsFrom rest (i + 1) (currentTime + duration)

/-- `this.segments` after `calculateTimeline`. -/
def segments (msgs : List Message) : List TimelineSegment :=
  segmentsFrom msgs 0 0

/-- `this.totalDuration` after `calculateTimeline`: the final value of the
`currentTime` accumulator, i.e. the sum of all message durations. -/
def totalDuration (msgs : List Message) : ℚ :=
  (msgs.map calculateMessageDuration).sum

/-- The `while (left <= right)` binary-search loop of
`getMessageIndexFromTime`, fuelled (the interval shrinks every iteration, so
`segments.length + 1` fuel is never exhausted). `some` is the loop's early
return; `none` means the loop exited (or the fuel ran out) and the caller
falls through to the post-loop fallback. -/
def bsearchLoop : ℕ → List TimelineSegment → ℚ → ℤ → ℤ → Option ℤ
  | 0, _, _, _, _ => none
  | fuel + 1, segs, time, left, right =>
    if left ≤ right then
      let mid := (left + right) / 2
      let segment := segs.getD mid.toNat default
      if segment.startTime ≤ time ∧ time < segment.endTime then
        some (segment.messageIndex : ℤ)
      else if time < segment.startTime then
        bsearchLoop fuel segs time left (mid - 1)
      else
        bsearchLoop fuel segs time (mid + 1) right
    else none

/-- `TimelineCalculator.getMessageIndexFromTime` (timelineCalculator.ts
386–414): boundary checks, binary search, then the linear fallback. -/
def getMessageIndexFromTime (msgs : List Message) (time : ℚ) : ℤ :=
  let segs := segments msgs
  if time ≤ 0 then -1
  else if totalDuration msgs ≤ time then (msgs.length : ℤ) - 1
  else
    match bsearchLoop (segs.length + 1) segs time 0 ((segs.length : ℤ) - 1) with
    | some i => i
    | none =>
      match segs.find? (fun s => decide (s.startTime ≤ time) && decide (time ≤ s.endTime)) with
      | some s => (s.messageIndex : ℤ)
      | none => (msgs.length : ℤ) - 1

/-- `TimelineCalculator.getTimeFromMessageIndex` (timelineCalculator.ts
419–425). -/
def getTimeFromMessageIndex (msgs : List Message) (index : ℤ) : ℚ :=
  if index < 0 then 0
  else if (segments msgs).length ≤ index then totalDuration msgs
  else ((segments msgs).getD index.toNat default).startTime

end TimelineCalculator

namespace PlaybackStateManager

/-- The descriptive-time map of `PlaybackStateManager.parseDescriptiveTime`
(usePlaybackState.ts 167–179). -/
def descriptiveTimeMap : List (List Char × ℚ) :=
  [("稍后".data, 1000), ("片刻后".data, 1500), ("一会儿后".data, 2000),
   ("很久之后".data, 3000), ("许久之后".data, 4000),
   ("短".data, 500), ("short".data, 500),
   ("中".data, 1000), ("medium".data, 1000),
   ("长".data, 2000), ("long".data, 2000)]

/-- The logarithmic pause-compression ladder applied when
`compressForPause && milliseconds > 5000` (usePlaybackState.ts 218–236). -/
def pauseCompress (ms : ℚ) : ℚ :=
  if ms ≤ 60000 then min ms 2000
  else if ms ≤ 300000 then 2500
  else if ms ≤ 1800000 then 3000
  else if ms ≤ 3600000 then 3500
  else 4000

/-- `PlaybackStateManager.parseDescriptiveTime` (usePlaybackState.ts
163–242): falsy input → 800; descriptive map; number+unit regex with the
pause-compression ladder when requested; unmatched input → 1500. -/
def parseDescriptiveTime (duration : Option String) (compressForPause : Bool) : ℚ :=
  if ¬jsTruthy duration then 800
  else
    let d := duration.getD ""
    match descriptiveTimeMap.lookup (normalizeDuration d) with
    | some v => v
    | none =>
      match jsDurationMatchMs d with
      | some ms =>
        if compressForPause ∧ 5000 < ms then pauseCompress ms else ms
      | none => 1500

/-- `a || b` on an optional string and a fallback string. -/
def jsOrElse (a : Option String) (b : String) : String :=
  match a with
  | some s => if s = "" then b else s
  | none => b

/-- `PlaybackStateManager.getMessageDuration` (usePlaybackState.ts
140–160). -/
def getMessageDuration (m : Message) : ℚ :=
  match m.type with
  | some .pause => parseDescriptiveTime m.duration true
  | some .typing => parseDescriptiveTime (some (jsOrElse m.statusDuration (jsOrElse m.duration "3s"))) false
  | some .recall => parseDescriptiveTime m.recallDelay false
  | _ =>
    if jsTruthy m.animationDelay then parseDescriptiveTime m.animationDelay false
    else
      let contentLength := (m.content.getD "").length
      max 800 (min (800 + (contentLength : ℚ) * 20) 1500)

/-- `PlaybackStateManager.calculateTotalDuration`: the accumulation loop over
all messages. -/
def calculateTotalDuration (msgs : List Message) : ℚ :=
  (msgs.map getMessageDuration).sum

/-- `PlaybackStateManager.calculateTimeFromMessageIndex` (usePlaybackState.ts
262–270): the loop `for (i = 0; i <= index && i < length; i++)` sums the
durations of messages `0 .. index` inclusive, i.e. of the first
`min (index + 1) length` messages (none when `index < 0`). -/
def calculateTimeFromMessageIndex (msgs : List Message) (index : ℤ) : ℚ :=
  ((msgs.take (min (index + 1) (msgs.length : ℤ)).toNat).map getMessageDuration).sum

/-- Playback modes. -/
inductive PlayMode where
  | normal
  | loop
  | preview
deriving DecidableEq, Repr

/-- A history entry (`PlaybackSnapshot`); `timestamp` is the `Date.now()`
value passed in by the caller of the snapshotting operation. -/
structure PlaybackSnapshot where
  timestamp : ℕ
  messageIndex : ℤ
  scrollPosition : ℚ
  playbackSpeed : ℚ
  playMode : PlayMode
deriving DecidableEq, Repr

/-- The observable `PlaybackState`. -/
structure PlaybackState where
  isPlaying : Bool
  isPaused : Bool
  currentTime : ℚ
  totalDuration : ℚ
  playbackSpeed : ℚ
  playMode : PlayMode
  currentMessageIndex : ℤ
  visibleMessages : List Message
  shouldAutoScroll : Bool
  scrollPosition : ℚ
  history : List PlaybackSnapshot
  historyIndex : ℤ
deriving DecidableEq, Repr

/-- The constructor's initial state (usePlaybackState.ts 91–104). -/
def initState (msgs : List Message) : PlaybackState where
  isPlaying := false
  isPaused := false
  currentTime := 0
  totalDuration := calculateTotalDuration msgs
  playbackSpeed := 1
  playMode := .normal
  currentMessageIndex := -1
  visibleMessages := []
  shouldAutoScroll := true
  scrollPosition := 0
  history := []
  historyIndex := -1

/-- The whole manager: the observable state plus the private `messages`
list, the pending `animationTimer` (as the scheduled delay) and a count of
`onAnimationComplete` invocations. -/
structure ManagerState where
  state : PlaybackState
  messages : List Message
  timer : Option ℚ
  completions : ℕ
deriving DecidableEq, Repr

/-- A fresh manager over a message list. -/
def initManager (msgs : List Message) : ManagerState where
  state := initState msgs
  messages := msgs
  timer := none
  completions := 0

/-- `PlaybackStateManager.calculateVisibleMessages`: preview shows all
messages, other modes `messages.slice(0, index + 1)`. -/
def calculateVisibleMessages (mode : PlayMode) (msgs : List Message) (messageIndex : ℤ) : List Message :=
  if mode = .preview then msgs else msgs.take (messageIndex + 1).toNat

/-- `PlaybackStateManager.calculateScrollPosition`: a 60 px row model in a
600 px container. -/
def calculateScrollPosition (messageIndex : ℤ) : ℚ :=
  let totalHeight : ℚ := (messageIndex : ℚ) * 60
  if 600 < totalHeight then totalHeight - 600 + 60 else 0

/-- `PlaybackStateManager.saveSnapshot` (usePlaybackState.ts 299–326):
discard redo entries, push the snapshot, cap the buffer at 50, point
`historyIndex` at the end. -/
def saveSnapshot (now : ℕ) (s : PlaybackState) : PlaybackState :=
  let snapshot : PlaybackSnapshot :=
    { timestamp := now, messageIndex := s.currentMessageIndex,
      scrollPosition := s.scrollPosition, playbackSpeed := s.playbackSpeed,
      playMode := s.playMode }
  let history1 :=
    if s.historyIndex < (s.history.length : ℤ) - 1 then
      s.history.take (s.historyIndex + 1).toNat
    else s.history
  let history2 := history1 ++ [snapshot]
  let history3 :=
    if 50 < history2.length then history2.drop (history2.length - 50) else history2
  { s with history := history3, historyIndex := (history3.length : ℤ) - 1 }

/-- The state update performed by `seekToMessage` before the snapshot and the
possible animation-loop restart (usePlaybackState.ts 452–465). -/
def seekUpdate (msgs : List Message) (now : ℕ) (index : ℤ) (s : PlaybackState) : PlaybackState :=
  let clampedIndex := max (-1) (min ((msgs.length : ℤ) - 1) index)
  let visibleMessages := calculateVisibleMessages s.playMode msgs clampedIndex
  let scrollPosition := calculateScrollPosition clampedIndex
  let currentTime := calculateTimeFromMessageIndex msgs clampedIndex
  saveSnapshot now
    { s with currentMessageIndex := clampedIndex, currentTime := currentTime,
             visibleMessages := visibleMessages, scrollPosition := scrollPosition }

mutual

/-- `PlaybackStateManager.seekToMessage` (usePlaybackState.ts 452–471):
update + snapshot, then restart the animation loop when playing. -/
def seekToMessage : ℕ → ℕ → ℤ → ManagerState → Option ManagerState
  | 0, _, _, _ => none
  | fuel + 1, now, index, ms =>
    let ms1 := { ms with state := seekUpdate ms.messages now index ms.state }
    if ms1.state.isPlaying then startAnimationLoop fuel now ms1 else some ms1

/-- `PlaybackStateManager.startAnimationLoop` (usePlaybackState.ts 351–360):
clear the timer, seek to 0 when starting from −1 on a nonempty list, then
`playNextMessage`. -/
def startAnimationLoop : ℕ → ℕ → ManagerState → Option ManagerState
  | 0, _, _ => none
  | fuel + 1, now, ms =>
    let ms1 := { ms with timer := none }
    if ms1.state.currentMessageIndex = -1 ∧ 0 < ms1.messages.length then
      match seekToMessage fuel now 0 ms1 with
      | none => none
      | some ms2 => playNextMessage fuel now ms2
    else playNextMessage fuel now ms1

/-- `PlaybackStateManager.playNextMessage` (usePlaybackState.ts 368–396): at
or past the last index either rewind and continue (loop mode) or stop and
fire `onAnimationComplete`; otherwise schedule the next-message timer. -/
def playNextMessage : ℕ → ℕ → ManagerState → Option ManagerState
  | 0, _, _ => none
  | fuel + 1, now, ms =>
    if (ms.messages.length : ℤ) - 1 ≤ ms.state.currentMessageIndex then
      if ms.state.playMode = .loop then
        match seekToMessage fuel now (-1) ms with
        | none => none
        | some ms2 => startAnimationLoop fuel now ms2
      else
        some { ms with
          state := { ms.state with isPlaying := false, isPaused := false },
          completions := ms.completions + 1 }
    else
      let nextIndex := ms.state.currentMessageIndex + 1
      let nextMessage := ms.messages.getD nextIndex.toNat default
      let delay := getMessageDuration nextMessage / ms.state.playbackSpeed
      some { ms with timer := some delay }

end

/-- `PlaybackStateManager.play` (usePlaybackState.ts 399–412): rewind when at
or past the last index, set the playing flags (leaving preview mode), start
the loop. -/
def play (fuel : ℕ) (now : ℕ) (ms : ManagerState) : Option ManagerState :=
  let step1 :=
    if (ms.messages.length : ℤ) - 1 ≤ ms.state.currentMessageIndex then
      seekToMessage fuel now (-1) ms
    else some ms
  match step1 with
  | none => none
  | some ms1 =>
    let ms2 := { ms1 with state :=
      { ms1.state with
        isPlaying := true, isPaused := false,
        playMode := if ms1.state.playMode = .preview then .normal else ms1.state.playMode } }
    startAnimationLoop fuel now ms2

/-- The lower policy bound of `setPlaybackSpeed` (usePlaybackState.ts 480). -/
def minPlaybackSpeed : ℚ := 1 / 10

/-- The upper policy bound of `setPlaybackSpeed` (usePlaybackState.ts 480). -/
def maxPlaybackSpeed : ℚ := 5

/-- `PlaybackStateManager.setPlaybackSpeed` (usePlaybackState.ts 479–487):
clamp to the policy bounds, restart the loop when playing. -/
def setPlaybackSpeed (fuel : ℕ) (now : ℕ) (speed : ℚ) (ms : ManagerState) : Option ManagerState :=
  let clampedSpeed := max minPlaybackSpeed (min maxPlaybackSpeed speed)
  let ms1 := { ms with state := { ms.state with playbackSpeed := clampedSpeed } }
  if ms1.state.isPlaying then startAnimationLoop fuel now ms1 else some ms1

end PlaybackStateManager

namespace ExportEngine

/-- Errors surfaced by `ExportEngine.exportAnimation`'s synchronous entry
checks. -/
inductive ExportError where
  | busy
  | invalidContainer
deriving DecidableEq, Repr

/-- The engine fields the busy guard touches: the `isExporting` flag and the
registered progress callback (identified by a token). -/
structure EngineState where
  isExporting : Bool
  progressCallback : Option ℕ
deriving DecidableEq, Repr

/-- The synchronous entry of `ExportEngine.exportAnimation` (part of the
export-engine module, lines 653–668): reject when a job is active, reject an
invalid container ref, otherwise claim the busy flag and register the
callback. -/
def exportAnimationEntry (es : EngineState) (hasContainer : Bool) (cb : ℕ) :
    Except ExportError Unit × EngineState :=
  if es.isExporting then (.error .busy, es)
  else if ¬hasContainer then (.error .invalidContainer, es)
  else (.ok (), { isExporting := true, progressCallback := some cb })

/-- The capturing-phase percentage `(i / (messages.length + 1)) * 50`
reported for frame `i` (export-engine module, lines 809–820). -/
def captureProgressPercentage (i n : ℕ) : ℚ :=
  ((i : ℚ) / ((n : ℚ) + 1)) * 50

/-- The encoding-phase percentage `50 + progress * 50` the main-thread GIF
encoder reports for a `gif.js` progress value (export-engine module, lines
886–897). -/
def encodeGifProgressPercentage (progress : ℚ) : ℚ :=
  50 + progress * 50

/-- The encoding-phase percentage `50 + (processedFrames / totalFrames) * 40`
the export worker posts (export worker, GIF and video branches). -/
def workerEncodeProgressPercentage (processedFrames totalFrames : ℕ) : ℚ :=
  50 + ((processedFrames : ℚ) / (totalFrames : ℚ)) * 40

end ExportEngine

namespace UseGifExport

/-- `getMessageDelay` from the GIF export hook (`useGifExport.exportToGif`):
pause durations go through the number+unit regex
`/(\d+\.?\d*)\s*(秒|s|分钟|m|小时|h)?/i` — effectively the same match as the
other components' regex, since `s`/`m`/`h` shadow the longer unit words in
both alternations — with the default unit being seconds, and any parsed wait
above 5000 ms is compressed through the same ladder as the playback
manager's (the hook repeats that ladder verbatim); an absent or empty
duration falls back to `'1秒'`; an unparsable one returns the configured
frame delay; typing frames get 800 ms; every other message gets the
configured frame delay (default 1500). -/
def getMessageDelay (delay : ℚ) (m : Message) : ℚ :=
  match m.type with
  | some .pause =>
    let duration := PlaybackStateManager.jsOrElse m.duration "1秒"
    match jsDurationMatchMs duration with
    | some ms =>
      if 5000 < ms then PlaybackStateManager.pauseCompress ms else ms
    | none => delay
  | some .typing => 800
  | _ => delay

end UseGifExport

/-! Concrete fixtures used by witnesses and counterexamples. -/

/-- A plain text message of content length 10 (`text(len=10)` in the spec's
Scenario A). -/
def textMsg10 : Message := { content := some "aaaaaaaaaa" }

/-- The `pause("2s")` message of Scenario A. -/
def pauseMsg2s : Message := { type := some MType.pause, duration := some "2s" }

/-- A pause message describing a literal one-minute wait. -/
def pauseMsg1min : Message := { type := some MType.pause, duration := some "1 minute" }

/-- A pause message describing a literal two-hour wait. -/
def pauseMsg2h : Message := { type := some MType.pause, duration := some "2 hours" }

/-- Scenario A's message list. -/
def scenarioA : List Message := [textMsg10, pauseMsg2s, textMsg10]

/-- A fresh manager over an empty message list, switched to preview mode. -/
def previewEmptyManager : PlaybackStateManager.ManagerState :=
  { PlaybackStateManager.initManager [] with
    state := { PlaybackStateManager.initState [] with playMode := .preview } }

/-- A one-message manager in the playing state at index 0. -/
def playingOneMsgManager : PlaybackStateManager.ManagerState :=
  { PlaybackStateManager.initManager [textMsg10] with
    state := { PlaybackStateManager.initState [textMsg10] with
               isPlaying := true, currentMessageIndex := 0 } }

/-!
## Theorems

The claims C1–C10 of the specification, each settled against the embedding
above.
-/

open PlaybackStateManager ExportEngine

/-- Claim C6 (confirmed): when the busy flag is set, a second export request
fails fast with the busy error before any state mutation — the engine state
(including the in-flight job's progress callback and busy flag) is returned
untouched. -/
theorem claim6_export_busy_fails_fast (es : EngineState) (hasContainer : Bool)
    (cb : ℕ) (h : es.isExporting = true) :
    exportAnimationEntry es hasContainer cb = (.error .busy, es) := by
  simp [exportAnimationEntry, h]

/-- Witness for C6: a concrete engine with an active job (busy flag set,
callback 7 registered) rejects a second request and is left untouched. -/
theorem claim6_export_busy_witness :
    exportAnimationEntry ⟨true, some 7⟩ true 3 = (.error .busy, ⟨true, some 7⟩) :=
  claim6_export_busy_fails_fast ⟨true, some 7⟩ true 3 rfl

/-- Counterexample to claim C9: the main-thread GIF encoder's progress
handler maps the encoder's progress value 1 to 100 %, outside the claimed
50–95 % encoding band. -/
theorem claim9_counterexample :
    encodeGifProgressPercentage 1 = 100 ∧ ¬((100 : ℚ) ≤ 95) := by
  constructor
  · norm_num [encodeGifProgressPercentage]
  · norm_num

/-- Claim C9 (corrected): capturing-phase reports lie in the 0–50 % band
(strictly below 50); the main-thread GIF encoder maps progress `p ∈ [0,1]`
into 50–100 % (not 50–95 %); the worker encoder's reports do lie in the
50–90 % sub-band of the claimed 50–95 %. -/
theorem claim9_progress_bands :
    (∀ i n : ℕ, i ≤ n →
      0 ≤ captureProgressPercentage i n ∧ captureProgressPercentage i n < 50) ∧
    (∀ p : ℚ, 0 ≤ p → p ≤ 1 →
      50 ≤ encodeGifProgressPercentage p ∧ encodeGifProgressPercentage p ≤ 100) ∧
    (∀ k n : ℕ, 1 ≤ k → k ≤ n →
      50 < workerEncodeProgressPercentage k n ∧ workerEncodeProgressPercentage k n ≤ 90) := by
  refine ⟨fun i n hin => ⟨?_, ?_⟩, fun p hp0 hp1 => ⟨?_, ?_⟩, fun k n hk hkn => ⟨?_, ?_⟩⟩
  · have hn : (0 : ℚ) < (n : ℚ) + 1 := by positivity
    have : (0 : ℚ) ≤ (i : ℚ) / ((n : ℚ) + 1) := by positivity
    unfold captureProgressPercentage
    nlinarith
  · have hn : (0 : ℚ) < (n : ℚ) + 1 := by positivity
    have hi : (i : ℚ) < (n : ℚ) + 1 := by
      have : (i : ℚ) ≤ (n : ℚ) := by exact_mod_cast hin
      linarith
    have : (i : ℚ) / ((n : ℚ) + 1) < 1 := (div_lt_one hn).mpr hi
    unfold captureProgressPercentage
    nlinarith
  · unfold encodeGifProgressPercentage; nlinarith
  · unfold encodeGifProgressPercentage; nlinarith
  · have hn : (0 : ℚ) < (n : ℚ) := by
      have : (1 : ℚ) ≤ (k : ℚ) := by exact_mod_cast hk
      have : (k : ℚ) ≤ (n : ℚ) := by exact_mod_cast hkn
      linarith
    have hkpos : (0 : ℚ) < (k : ℚ) := by
      have : (1 : ℚ) ≤ (k : ℚ) := by exact_mod_cast hk
      linarith
    have : (0 : ℚ) < (k : ℚ) / (n : ℚ) := by positivity
    unfold workerEncodeProgressPercentage
    nlinarith
  · have hn : (0 : ℚ) < (n : ℚ) := by
      have h1 : (1 : ℚ) ≤ (k : ℚ) := by exact_mod_cast hk
      have h2 : (k : ℚ) ≤ (n : ℚ) := by exact_mod_cast hkn
      linarith
    have : (k : ℚ) / (n : ℚ) ≤ 1 := by
      rw [div_le_one hn]
      exact_mod_cast hkn
    unfold workerEncodeProgressPercentage
    nlinarith

/-- Witness for the amended C9: concrete reports from each phase — frame 0
of 4 while capturing, encoder progress 1/2 on the main thread, frame 1 of 2
in the worker — all satisfy the proved bands. -/
theorem claim9_progress_bands_witness :
    (0 ≤ captureProgressPercentage 0 3 ∧ captureProgressPercentage 0 3 < 50) ∧
    (50 ≤ encodeGifProgressPercentage (1 / 2) ∧ encodeGifProgressPercentage (1 / 2) ≤ 100) ∧
    (50 < workerEncodeProgressPercentage 1 2 ∧ workerEncodeProgressPercentage 1 2 ≤ 90) :=
  ⟨claim9_progress_bands.1 0 3 (by norm_num),
   claim9_progress_bands.2.1 (1 / 2) (by norm_num) (by norm_num),
   claim9_progress_bands.2.2 1 2 (by norm_num) (by norm_num)⟩

/-- Counterexample to claim C2: no single component realises both halves of
the scenario-A claim. In the `TimelineCalculator`, the text message of
length 10 resolves to 2000 ms, outside the claimed 800–1000 ms band; in the
`PlaybackStateManager` (whose durations are [1000, 2000, 1000]),
`calculateTimeFromMessageIndex 2` is 4000 ms, not the 3000 ms sum of the
first two resolved durations. -/
theorem claim2_counterexample :
    (TimelineCalculator.calculateMessageDuration textMsg10 = 2000 ∧
      ¬(800 ≤ TimelineCalculator.calculateMessageDuration textMsg10 ∧
        TimelineCalculator.calculateMessageDuration textMsg10 ≤ 1000)) ∧
    (scenarioA.map getMessageDuration = [1000, 2000, 1000] ∧
      calculateTimeFromMessageIndex scenarioA 2 ≠
        getMessageDuration textMsg10 + getMessageDuration pauseMsg2s) := by
  have h1 : TimelineCalculator.calculateMessageDuration textMsg10 = 2000 := by
    with_unfolding_all rfl
  have h2 : calculateTimeFromMessageIndex scenarioA 2 = 4000 := by
    with_unfolding_all rfl
  have h3 : getMessageDuration textMsg10 = 1000 := by with_unfolding_all rfl
  have h4 : getMessageDuration pauseMsg2s = 2000 := by with_unfolding_all rfl
  refine ⟨⟨h1, ?_⟩, ⟨?_, ?_⟩⟩
  · rw [h1]; norm_num
  · with_unfolding_all rfl
  · rw [h2, h3, h4]; norm_num

/-- Claim C2 (corrected): for Scenario A the playback manager resolves
[1000, 2000, 1000] ms (the claimed bands), but its
`calculateTimeFromMessageIndex 2` is the inclusive sum 4000 ms of all three
durations; the `TimelineCalculator`'s `getTimeFromMessageIndex 2` does equal
the sum of the first two resolved durations, but that component resolves the
text messages to 2000 ms each. -/
theorem claim2_scenarioA_values :
    scenarioA.map getMessageDuration = [1000, 2000, 1000] ∧
    calculateTimeFromMessageIndex scenarioA 2 =
      getMessageDuration textMsg10 + getMessageDuration pauseMsg2s +
        getMessageDuration textMsg10 ∧
    scenarioA.map TimelineCalculator.calculateMessageDuration = [2000, 2000, 2000] ∧
    TimelineCalculator.getTimeFromMessageIndex scenarioA 2 =
      TimelineCalculator.calculateMessageDuration textMsg10 +
        TimelineCalculator.calculateMessageDuration pauseMsg2s := by
  refine ⟨?_, ?_, ?_, ?_⟩ <;> with_unfolding_all rfl

/-- Counterexample to claim C5: in the `TimelineCalculator`, a pause message
whose duration string is the literal "1 minute" resolves to 60000 ms of
on-screen time — the full wall-clock value, not a bounded 2–4 s wait. -/
theorem claim5_counterexample :
    TimelineCalculator.calculateMessageDuration pauseMsg1min = 60000 ∧
    ¬((60000 : ℚ) ≤ 4000) := by
  refine ⟨by with_unfolding_all rfl, by norm_num⟩

/-- Claim C5 (corrected): the `PlaybackStateManager` and the GIF export
hook's `getMessageDelay` both compress pause durations — any parsed wait
above 5000 ms lands in the bounded 2000–4000 ms window ("1 minute" →
2000 ms, "2 hours" → 4000 ms in both) — but the `TimelineCalculator`
resolves the same literal to its uncompressed wall-clock milliseconds, so
the claimed bound does not hold in every duration-resolving component. -/
theorem claim5_pause_compression :
    (∀ ms : ℚ, 5000 < ms → 2000 ≤ pauseCompress ms ∧ pauseCompress ms ≤ 4000) ∧
    getMessageDuration pauseMsg1min = 2000 ∧
    getMessageDuration pauseMsg2h = 4000 ∧
    UseGifExport.getMessageDelay 1500 pauseMsg1min = 2000 ∧
    UseGifExport.getMessageDelay 1500 pauseMsg2h = 4000 ∧
    TimelineCalculator.calculateMessageDuration pauseMsg1min = 60000 := by
  refine ⟨fun ms hms => ?_, ?_, ?_, ?_, ?_, ?_⟩
  · unfold pauseCompress
    split
    · constructor
      · rw [le_min_iff]; constructor <;> linarith
      · exact le_trans (min_le_right ms 2000) (by norm_num)
    · split
      · norm_num
      · split
        · norm_num
        · split <;> norm_num
  · with_unfolding_all rfl
  · with_unfolding_all rfl
  · with_unfolding_all rfl
  · with_unfolding_all rfl
  · with_unfolding_all rfl

/-- Witness for the amended C5: the compression ladder applied at the parsed
value of "1 minute" (60000 ms) yields a wait within the 2000–4000 ms
window. -/
theorem claim5_pause_compression_witness :
    2000 ≤ pauseCompress 60000 ∧ pauseCompress 60000 ≤ 4000 :=
  claim5_pause_compression.1 60000 (by norm_num)

/-- Counterexample to claim C1: on a one-message list,
`getTimeFromMessageIndex 0` is 0 and `getMessageIndexFromTime 0` is −1 (the
`time <= 0` guard), so the composite is −1 ≠ 0 at the valid index 0. -/
theorem claim1_counterexample :
    TimelineCalculator.getMessageIndexFromTime [textMsg10]
      (TimelineCalculator.getTimeFromMessageIndex [textMsg10] 0) = -1 ∧
    (-1 : ℤ) ≠ 0 := by
  refine ⟨by with_unfolding_all rfl, by decide⟩

/-- Counterexample to claim C4: `play()` on a fresh manager over the empty
list is not a no-op — afterwards the history holds one snapshot (it held
none) and the completion callback has fired once. -/
theorem claim4_counterexample :
    (play 10 77 (initManager [])).map
        (fun m : ManagerState => (m.state.history.length, m.completions)) = some (1, 1) ∧
    (initManager []).state.history.length = 0 ∧
    (initManager []).completions = 0 := by
  refine ⟨by with_unfolding_all rfl, rfl, rfl⟩

/-- Counterexample to claim C7: seeking twice to index 0 on a fresh
one-message manager leaves `historyIndex` at 0 after the first call and at 1
after the second — each call appends a history snapshot — so the two
resulting `PlaybackState`s are not identical. -/
theorem claim7_counterexample :
    (seekToMessage 5 11 0 (initManager [textMsg10])).map
        (fun m : ManagerState => m.state.historyIndex) = some 0 ∧
    ((seekToMessage 5 11 0 (initManager [textMsg10])).bind
        (seekToMessage 5 11 0)).map
        (fun m : ManagerState => m.state.historyIndex) = some 1 := by
  refine ⟨by with_unfolding_all rfl, by with_unfolding_all rfl⟩

/-! Field-preservation lemmas for the seek update. -/

theorem seekUpdate_isPlaying (msgs : List Message) (now : ℕ) (i : ℤ) (s : PlaybackState) :
    (seekUpdate msgs now i s).isPlaying = s.isPlaying := rfl

theorem seekUpdate_isPaused (msgs : List Message) (now : ℕ) (i : ℤ) (s : PlaybackState) :
    (seekUpdate msgs now i s).isPaused = s.isPaused := rfl

theorem seekUpdate_playMode (msgs : List Message) (now : ℕ) (i : ℤ) (s : PlaybackState) :
    (seekUpdate msgs now i s).playMode = s.playMode := rfl

theorem seekUpdate_playbackSpeed (msgs : List Message) (now : ℕ) (i : ℤ) (s : PlaybackState) :
    (seekUpdate msgs now i s).playbackSpeed = s.playbackSpeed := rfl

theorem seekUpdate_totalDuration (msgs : List Message) (now : ℕ) (i : ℤ) (s : PlaybackState) :
    (seekUpdate msgs now i s).totalDuration = s.totalDuration := rfl

theorem seekUpdate_shouldAutoScroll (msgs : List Message) (now : ℕ) (i : ℤ) (s : PlaybackState) :
    (seekUpdate msgs now i s).shouldAutoScroll = s.shouldAutoScroll := rfl

theorem seekUpdate_currentMessageIndex (msgs : List Message) (now : ℕ) (i : ℤ) (s : PlaybackState) :
    (seekUpdate msgs now i s).currentMessageIndex = max (-1) (min ((msgs.length : ℤ) - 1) i) := rfl

theorem seekUpdate_currentTime (msgs : List Message) (now : ℕ) (i : ℤ) (s : PlaybackState) :
    (seekUpdate msgs now i s).currentTime =
      calculateTimeFromMessageIndex msgs (max (-1) (min ((msgs.length : ℤ) - 1) i)) := rfl

theorem seekUpdate_visibleMessages (msgs : List Message) (now : ℕ) (i : ℤ) (s : PlaybackState) :
    (seekUpdate msgs now i s).visibleMessages =
      calculateVisibleMessages s.playMode msgs (max (-1) (min ((msgs.length : ℤ) - 1) i)) := rfl

theorem seekUpdate_scrollPosition (msgs : List Message) (now : ℕ) (i : ℤ) (s : PlaybackState) :
    (seekUpdate msgs now i s).scrollPosition =
      calculateScrollPosition (max (-1) (min ((msgs.length : ℤ) - 1) i)) := rfl

/-- When the manager is not playing, `seekToMessage` is exactly the seek
update followed by the snapshot — no animation-loop restart. -/
theorem seekToMessage_not_playing (fuel now : ℕ) (i : ℤ) (ms : ManagerState)
    (h : ms.state.isPlaying = false) :
    seekToMessage (fuel + 1) now i ms =
      some { ms with state := seekUpdate ms.messages now i ms.state } := by
  simp only [seekToMessage]
  rw [if_neg]
  simp [seekUpdate_isPlaying, h]

/-- When the manager is not playing, `setPlaybackSpeed` only clamps and
stores the speed. -/
theorem setPlaybackSpeed_not_playing (fuel now : ℕ) (speed : ℚ) (ms : ManagerState)
    (h : ms.state.isPlaying = false) :
    setPlaybackSpeed fuel now speed ms =
      some { ms with state :=
        { ms.state with playbackSpeed := max minPlaybackSpeed (min maxPlaybackSpeed speed) } } := by
  simp only [setPlaybackSpeed]
  rw [if_neg]
  simp [h]

/-- Counterexample to claim C8: while playback is active on a one-message
list, `seekToMessage (-5)` does clamp to −1, but the restarted animation
loop synchronously seeks on to index 0, so the call does not result in
`currentMessageIndex == -1`. -/
theorem claim8_counterexample :
    (seekToMessage 9 0 (-5) playingOneMsgManager).map
      (fun m : ManagerState => m.state.currentMessageIndex) = some 0 ∧
    some (0 : ℤ) ≠ some (-1 : ℤ) := by
  refine ⟨by with_unfolding_all rfl, by decide⟩

/-- Claim C8 (corrected): out-of-range arguments are clamped, never
rejected — on an N-message list with playback not active, `seekToMessage
(-5)` lands on index −1, `seekToMessage (N+5)` lands on index N−1, and
`setPlaybackSpeed 100` stores the policy maximum speed. (While playing, the
clamp still happens but the restarted loop can advance past it, as the
counterexample shows.) -/
theorem claim8_out_of_range_clamped (fuel now : ℕ) (ms : ManagerState)
    (hplay : ms.state.isPlaying = false) :
    (∃ m1, seekToMessage (fuel + 1) now (-5) ms = some m1 ∧
      m1.state.currentMessageIndex = -1) ∧
    (∃ m2, seekToMessage (fuel + 1) now ((ms.messages.length : ℤ) + 5) ms = some m2 ∧
      m2.state.currentMessageIndex = (ms.messages.length : ℤ) - 1) ∧
    (∃ m3, setPlaybackSpeed fuel now 100 ms = some m3 ∧
      m3.state.playbackSpeed = maxPlaybackSpeed) := by
  have hlen : (0 : ℤ) ≤ (ms.messages.length : ℤ) := Int.ofNat_nonneg _
  refine ⟨⟨_, seekToMessage_not_playing fuel now (-5) ms hplay, ?_⟩,
          ⟨_, seekToMessage_not_playing fuel now _ ms hplay, ?_⟩,
          ⟨_, setPlaybackSpeed_not_playing fuel now 100 ms hplay, ?_⟩⟩
  · rw [seekUpdate_currentMessageIndex]; omega
  · rw [seekUpdate_currentMessageIndex]; omega
  · show max minPlaybackSpeed (min maxPlaybackSpeed 100) = maxPlaybackSpeed
    rw [minPlaybackSpeed, maxPlaybackSpeed]
    norm_num

/-- Witness for C8: on the three-message Scenario A list, seeking to −5
yields index −1, seeking to 3+5 yields index 2, and speed 100 is stored as
the policy maximum 5. -/
theorem claim8_out_of_range_clamped_witness :
    ((seekToMessage 5 0 (-5) (initManager scenarioA)).map
      (fun m : ManagerState => m.state.currentMessageIndex) = some (-1)) ∧
    ((seekToMessage 5 0 ((3 : ℤ) + 5) (initManager scenarioA)).map
      (fun m : ManagerState => m.state.currentMessageIndex) = some 2) ∧
    ((setPlaybackSpeed 4 0 100 (initManager scenarioA)).map
      (fun m : ManagerState => m.state.playbackSpeed) = some maxPlaybackSpeed) := by
  obtain ⟨⟨m1, e1, p1⟩, ⟨m2, e2, p2⟩, ⟨m3, e3, p3⟩⟩ :=
    claim8_out_of_range_clamped 4 0 (initManager scenarioA) rfl
  have hlen : ((initManager scenarioA).messages.length : ℤ) = 3 := by
    with_unfolding_all rfl
  rw [hlen] at e2 p2
  refine ⟨?_, ?_, ?_⟩
  · rw [e1]; simp [p1]
  · rw [e2]; simp [p2]
  · rw [e3]; simp [p3]

/-- Claim C7 (corrected): calling `seekToMessage i` twice (playback not
active) yields states identical in every component except the history —
index, time, visible messages, scroll, flags, speed, mode, total duration,
auto-scroll, messages and timer all agree — while each call appends a
history snapshot, so `history`/`historyIndex` differ. -/
theorem claim7_seek_idempotent_mod_history (f f' now now' : ℕ) (i : ℤ)
    (ms : ManagerState) (h : ms.state.isPlaying = false) :
    ∃ m1 m2, seekToMessage (f + 1) now i ms = some m1 ∧
      seekToMessage (f' + 1) now' i m1 = some m2 ∧
      m2.state.currentMessageIndex = m1.state.currentMessageIndex ∧
      m2.state.currentTime = m1.state.currentTime ∧
      m2.state.visibleMessages = m1.state.visibleMessages ∧
      m2.state.scrollPosition = m1.state.scrollPosition ∧
      m2.state.isPlaying = m1.state.isPlaying ∧
      m2.state.isPaused = m1.state.isPaused ∧
      m2.state.playbackSpeed = m1.state.playbackSpeed ∧
      m2.state.playMode = m1.state.playMode ∧
      m2.state.totalDuration = m1.state.totalDuration ∧
      m2.state.shouldAutoScroll = m1.state.shouldAutoScroll ∧
      m2.messages = m1.messages ∧
      m2.timer = m1.timer := by
  have e1 := seekToMessage_not_playing f now i ms h
  have e2 := seekToMessage_not_playing f' now' i
      { ms with state := seekUpdate ms.messages now i ms.state }
      (by rw [seekUpdate_isPlaying]; exact h)
  exact ⟨_, _, e1, e2, rfl, rfl, rfl, rfl, rfl, rfl, rfl, rfl, rfl, rfl, rfl, rfl⟩

/-- Witness for the corrected C7: the two seeks of the counterexample agree
on the non-history state — both land on index 0 at time 1000 ms. -/
theorem claim7_seek_idempotent_mod_history_witness :
    ∃ m1 m2, seekToMessage 5 11 0 (initManager [textMsg10]) = some m1 ∧
      seekToMessage 5 12 0 m1 = some m2 ∧
      m2.state.currentMessageIndex = m1.state.currentMessageIndex ∧
      m2.state.currentTime = m1.state.currentTime := by
  obtain ⟨m1, m2, e1, e2, p1, p2, -⟩ :=
    claim7_seek_idempotent_mod_history 4 4 11 12 0 (initManager [textMsg10]) rfl
  exact ⟨m1, m2, e1, e2, p1, p2⟩

/-- None of the three mutually recursive playback-loop operations ever
changes the play mode or the message list. -/
theorem loop_preserves_mode_messages (fuel : ℕ) :
    (∀ now (i : ℤ) ms ms', seekToMessage fuel now i ms = some ms' →
      ms'.state.playMode = ms.state.playMode ∧ ms'.messages = ms.messages) ∧
    (∀ now ms ms', startAnimationLoop fuel now ms = some ms' →
      ms'.state.playMode = ms.state.playMode ∧ ms'.messages = ms.messages) ∧
    (∀ now ms ms', playNextMessage fuel now ms = some ms' →
      ms'.state.playMode = ms.state.playMode ∧ ms'.messages = ms.messages) := by
  induction fuel with
  | zero =>
    refine ⟨?_, ?_, ?_⟩
    · intro now i ms ms' h
      exact absurd h (by simp [seekToMessage])
    · intro now ms ms' h
      exact absurd h (by simp [startAnimationLoop])
    · intro now ms ms' h
      exact absurd h (by simp [playNextMessage])
  | succ f ih =>
    obtain ⟨ihSeek, ihLoop, ihNext⟩ := ih
    refine ⟨?_, ?_, ?_⟩
    · intro now i ms ms' h
      simp only [seekToMessage] at h
      split at h
      · obtain ⟨hm, hmsg⟩ := ihLoop now _ ms' h
        rw [hm, hmsg]
        exact ⟨seekUpdate_playMode _ _ _ _, rfl⟩
      · cases h
        exact ⟨seekUpdate_playMode _ _ _ _, rfl⟩
    · intro now ms ms' h
      simp only [startAnimationLoop] at h
      split at h
      · cases hseek : seekToMessage f now 0 { ms with timer := none } with
        | none => rw [hseek] at h; cases h
        | some ms2 =>
          rw [hseek] at h
          obtain ⟨hm1, hmsg1⟩ := ihSeek now 0 _ ms2 hseek
          obtain ⟨hm2, hmsg2⟩ := ihNext now ms2 ms' h
          exact ⟨by rw [hm2, hm1], by rw [hmsg2, hmsg1]⟩
      · obtain ⟨hm, hmsg⟩ := ihNext now _ ms' h
        exact ⟨hm, hmsg⟩
    · intro now ms ms' h
      simp only [playNextMessage] at h
      split at h
      · split at h
        · cases hseek : seekToMessage f now (-1) ms with
          | none => rw [hseek] at h; cases h
          | some ms2 =>
            rw [hseek] at h
            obtain ⟨hm1, hmsg1⟩ := ihSeek now (-1) ms ms2 hseek
            obtain ⟨hm2, hmsg2⟩ := ihLoop now ms2 ms' h
            exact ⟨by rw [hm2, hm1], by rw [hmsg2, hmsg1]⟩
        · cases h
          exact ⟨rfl, rfl⟩
      · cases h
        exact ⟨rfl, rfl⟩

/-- Claim C10 (confirmed): whenever `play()` returns, the resulting play
mode is `normal` when it was `preview` beforehand, and is unchanged for
every other mode (the loop-mode divergences on lists of length ≤ 1 return no
state at all). -/
theorem claim10_play_leaves_preview (fuel now : ℕ) (ms ms' : ManagerState)
    (h : play fuel now ms = some ms') :
    ms'.state.playMode =
      if ms.state.playMode = PlayMode.preview then PlayMode.normal
      else ms.state.playMode := by
  unfold play at h
  split at h
  · cases hseek : seekToMessage fuel now (-1) ms with
    | none => rw [hseek] at h; cases h
    | some ms1 =>
      rw [hseek] at h
      obtain ⟨hm1, -⟩ := (loop_preserves_mode_messages fuel).1 now (-1) ms ms1 hseek
      obtain ⟨hm2, -⟩ := (loop_preserves_mode_messages fuel).2.1 now _ ms' h
      have hmode : ms'.state.playMode =
          (if ms1.state.playMode = PlayMode.preview then PlayMode.normal
           else ms1.state.playMode) := hm2
      rw [hmode, hm1]
  · simp only at h
    obtain ⟨hm2, -⟩ := (loop_preserves_mode_messages fuel).2.1 now _ ms' h
    have hmode : ms'.state.playMode =
        (if ms.state.playMode = PlayMode.preview then PlayMode.normal
         else ms.state.playMode) := hm2
    rw [hmode]

/-- Witness for C10: playing a fresh empty-list manager that sits in preview
mode returns a state whose mode has silently switched to `normal`. -/
theorem claim10_play_leaves_preview_witness :
    (play 5 0 previewEmptyManager).map
      (fun m : ManagerState => m.state.playMode) = some PlayMode.normal := by
  cases h : play 5 0 previewEmptyManager with
  | none =>
    exact absurd h (by with_unfolding_all decide)
  | some m =>
    have := claim10_play_leaves_preview 5 0 previewEmptyManager m h
    rw [Option.map_some']
    rw [this]
    rfl

/-- Claim C4 (corrected): `play()` on an empty message list (not already
playing, mode not `loop`, index at or above −1) schedules no timer and ends
with playback stopped, but it is not a no-op: it performs the rewind seek to
−1 (appending a history snapshot) and fires the completion callback exactly
once. -/
theorem claim4_play_empty_not_noop (fuel now : ℕ) (ms : ManagerState)
    (hmsgs : ms.messages = []) (hmode : ms.state.playMode ≠ PlayMode.loop)
    (hplay : ms.state.isPlaying = false)
    (hidx : -1 ≤ ms.state.currentMessageIndex) (hfuel : 2 ≤ fuel) :
    play fuel now ms = some
      { state :=
          { seekUpdate ms.messages now (-1) ms.state with
            isPlaying := false, isPaused := false,
            playMode := if ms.state.playMode = PlayMode.preview then PlayMode.normal
                        else ms.state.playMode },
        messages := ms.messages, timer := none,
        completions := ms.completions + 1 } := by
  obtain ⟨f, rfl⟩ : ∃ f, fuel = f + 2 := ⟨fuel - 2, by omega⟩
  have hlen : (ms.messages.length : ℤ) = 0 := by rw [hmsgs]; rfl
  unfold play
  rw [if_pos (by rw [hlen]; omega)]
  rw [seekToMessage_not_playing (f + 1) now (-1) ms hplay]
  simp only [startAnimationLoop]
  rw [if_neg (by rw [hmsgs]; simp)]
  simp only [playNextMessage]
  rw [if_pos (by rw [hlen, seekUpdate_currentMessageIndex, hlen]; omega)]
  rw [if_neg ?hnl]
  case hnl =>
    show ¬(if ms.state.playMode = PlayMode.preview then PlayMode.normal
           else ms.state.playMode) = PlayMode.loop
    split
    · simp
    · exact hmode
  rfl

/-- Witness for the corrected C4: playing a fresh empty-list manager yields
exactly the stopped state with one history snapshot and one completion. -/
theorem claim4_play_empty_not_noop_witness :
    play 5 3 (initManager []) = some
      { state :=
          { seekUpdate (initManager []).messages 3 (-1) (initManager []).state with
            isPlaying := false, isPaused := false,
            playMode := if (initManager []).state.playMode = PlayMode.preview
                        then PlayMode.normal
                        else (initManager []).state.playMode },
        messages := (initManager []).messages, timer := none,
        completions := (initManager []).completions + 1 } :=
  claim4_play_empty_not_noop 5 3 (initManager []) rfl (by decide) rfl
    (by decide) (by omega)

namespace TimelineCalculator

/-- Unfolding one step of the running total: the duration sum of the first
`k + 1` messages adds the k-th message's duration. -/
theorem totalDuration_take_succ (msgs : List Message) (k : ℕ) (hk : k < msgs.length) :
    totalDuration (msgs.take (k + 1)) =
      totalDuration (msgs.take k) + calculateMessageDuration (msgs.get ⟨k, hk⟩) := by
  unfold totalDuration
  rw [List.take_succ, List.map_append, List.sum_append]
  rw [List.getElem?_eq_getElem hk]
  simp [List.get_eq_getElem]

/-- The segment loop produces one segment per message. -/
theorem segmentsFrom_length (msgs : List Message) :
    ∀ (i : ℕ) (t : ℚ), (segmentsFrom msgs i t).length = msgs.length := by
  induction msgs with
  | nil => intro i t; rfl
  | cons m rest ih => intro i t; simp [segmentsFrom, ih]

/-- Closed form of the k-th segment produced by the loop started at index
`i` and time `t`: its bounds are `t` plus the running totals, its index is
`i + k`. -/
theorem segmentsFrom_getD (msgs : List Message) :
    ∀ (i : ℕ) (t : ℚ) (k : ℕ) (hk : k < msgs.length),
      (segmentsFrom msgs i t).getD k default =
        { startTime := t + totalDuration (msgs.take k),
          endTime := t + totalDuration (msgs.take (k + 1)),
          messageIndex := i + k,
          type := getSegmentType (msgs.get ⟨k, hk⟩),
          duration := calculateMessageDuration (msgs.get ⟨k, hk⟩) } := by
  induction msgs with
  | nil => intro i t k hk; exact absurd hk (by simp)
  | cons m rest ih =>
    intro i t k hk
    cases k with
    | zero =>
      simp only [segmentsFrom, List.getD_cons_zero, List.get]
      simp [totalDuration]
    | succ k =>
      have hk' : k < rest.length := by simpa using hk
      simp only [segmentsFrom, List.getD_cons_succ]
      rw [ih (i + 1) (t + calculateMessageDuration m) k hk']
      simp only [TimelineSegment.mk.injEq]
      refine ⟨?_, ?_, by omega, rfl, rfl⟩
      · simp [totalDuration, List.take_succ_cons]; ring
      · simp [totalDuration, List.take_succ_cons]; ring

/-- Closed form of the k-th timeline segment: `[P k, P (k+1))` with index
`k`, where `P` is the running duration total. -/
theorem segments_getD (msgs : List Message) (k : ℕ) (hk : k < msgs.length) :
    (segments msgs).getD k default =
      { startTime := totalDuration (msgs.take k),
        endTime := totalDuration (msgs.take (k + 1)),
        messageIndex := k,
        type := getSegmentType (msgs.get ⟨k, hk⟩),
        duration := calculateMessageDuration (msgs.get ⟨k, hk⟩) } := by
  have h := segmentsFrom_getD msgs 0 0 k hk
  simpa [segments] using h

/-- Claim C3 (confirmed): for every message list the derived segments are
contiguous and cover `[0, totalDuration)` — the first segment starts at 0,
each segment's end time is the next segment's start time, and the last
segment ends at the total duration. -/
theorem claim3_segments_contiguous (msgs : List Message) :
    (∀ k, k + 1 < (segments msgs).length →
      ((segments msgs).getD k default).endTime =
        ((segments msgs).getD (k + 1) default).startTime) ∧
    (0 < (segments msgs).length →
      ((segments msgs).getD 0 default).startTime = 0) ∧
    (0 < (segments msgs).length →
      ((segments msgs).getD ((segments msgs).length - 1) default).endTime =
        totalDuration msgs) := by
  have hlen : (segments msgs).length = msgs.length := segmentsFrom_length msgs 0 0
  refine ⟨?_, ?_, ?_⟩
  · intro k hk
    rw [hlen] at hk
    rw [segments_getD msgs k (by omega), segments_getD msgs (k + 1) (by omega)]
  · intro h
    rw [hlen] at h
    rw [segments_getD msgs 0 h]
    simp [totalDuration]
  · intro h
    rw [hlen] at h
    rw [hlen, segments_getD msgs (msgs.length - 1) (by omega)]
    have : msgs.length - 1 + 1 = msgs.length := by omega
    rw [this, List.take_length]

/-- Witness for C3: on the three-message Scenario A list, segment 0 ends
where segment 1 starts, segment 0 starts at 0, and segment 2 ends at the
total duration. -/
theorem claim3_segments_contiguous_witness :
    ((segments scenarioA).getD 0 default).endTime =
      ((segments scenarioA).getD 1 default).startTime ∧
    ((segments scenarioA).getD 0 default).startTime = 0 ∧
    ((segments scenarioA).getD 2 default).endTime = totalDuration scenarioA := by
  obtain ⟨h1, h2, h3⟩ := claim3_segments_contiguous scenarioA
  have hlen : (segments scenarioA).length = 3 := by with_unfolding_all rfl
  refine ⟨h1 0 (by rw [hlen]; omega), h2 (by rw [hlen]; omega), ?_⟩
  have := h3 (by rw [hlen]; omega)
  rw [hlen] at this
  exact this

end TimelineCalculator

namespace TimelineCalculator

/-- With nonnegative durations the running total is monotone. -/
theorem totalDuration_take_mono (msgs : List Message)
    (hd : ∀ m ∈ msgs, 0 ≤ calculateMessageDuration m) {a b : ℕ}
    (hab : a ≤ b) (hb : b ≤ msgs.length) :
    totalDuration (msgs.take a) ≤ totalDuration (msgs.take b) := by
  induction b, hab using Nat.le_induction with
  | base => exact le_refl _
  | succ b hab2 ih =>
    have hb' : b < msgs.length := by omega
    rw [totalDuration_take_succ msgs b hb']
    have hdur : 0 ≤ calculateMessageDuration (msgs.get ⟨b, hb'⟩) :=
      hd _ (msgs.get_mem _ _)
    have := ih (by omega)
    linarith

/-- With positive durations the running total is strictly monotone. -/
theorem totalDuration_take_strict_mono (msgs : List Message)
    (hd : ∀ m ∈ msgs, 0 < calculateMessageDuration m) {a b : ℕ}
    (hab : a < b) (hb : b ≤ msgs.length) :
    totalDuration (msgs.take a) < totalDuration (msgs.take b) := by
  have ha : a < msgs.length := by omega
  have h1 : totalDuration (msgs.take a) < totalDuration (msgs.take (a + 1)) := by
    rw [totalDuration_take_succ msgs a ha]
    linarith [hd (msgs.get ⟨a, ha⟩) (msgs.get_mem _ _)]
  have h2 : totalDuration (msgs.take (a + 1)) ≤ totalDuration (msgs.take b) :=
    totalDuration_take_mono msgs (fun m hm => (hd m hm).le) (by omega) hb
  linarith

/-- Correctness of the binary-search loop: on the canonical segment list,
any time lying inside segment `i`'s half-open interval is found, provided
the search interval brackets `i` and the fuel dominates the interval
width. -/
theorem bsearchLoop_correct (msgs : List Message)
    (hd : ∀ m ∈ msgs, 0 ≤ calculateMessageDuration m) (t : ℚ) (i : ℕ)
    (hi : i < msgs.length)
    (ht1 : totalDuration (msgs.take i) ≤ t)
    (ht2 : t < totalDuration (msgs.take (i + 1))) :
    ∀ (fuel : ℕ) (l r : ℤ), 0 ≤ l → r < (msgs.length : ℤ) →
      l ≤ (i : ℤ) → (i : ℤ) ≤ r → (r - l).toNat < fuel →
      bsearchLoop fuel (segments msgs) t l r = some (i : ℤ) := by
  intro fuel
  induction fuel with
  | zero => intro l r _ _ _ _ hf; omega
  | succ f ih =>
    intro l r hl hr hli hir hf
    have hlr : l ≤ r := le_trans hli hir
    have hml : l ≤ (l + r) / 2 := by omega
    have hmr : (l + r) / 2 ≤ r := by omega
    simp only [bsearchLoop]
    rw [if_pos hlr]
    generalize hq : ((l + r) / 2).toNat = q
    have hmidlen : q < msgs.length := by omega
    have hmidnat : (q : ℤ) = (l + r) / 2 := by omega
    rw [segments_getD msgs q hmidlen]
    by_cases hc1 : totalDuration (msgs.take q) ≤ t ∧ t < totalDuration (msgs.take (q + 1))
    · rw [if_pos hc1]
      have hqi : q = i := by
        by_contra hne
        rcases Nat.lt_or_ge q i with hlt | hge
        · have hmono : totalDuration (msgs.take (q + 1)) ≤ totalDuration (msgs.take i) :=
            totalDuration_take_mono msgs hd (by omega) (by omega)
          linarith [hc1.2]
        · have hgt : i < q := by omega
          have hmono : totalDuration (msgs.take (i + 1)) ≤ totalDuration (msgs.take q) :=
            totalDuration_take_mono msgs hd (by omega) (by omega)
          linarith [hc1.1]
      subst hqi
      rfl
    · rw [if_neg hc1]
      by_cases hc2 : t < totalDuration (msgs.take q)
      · rw [if_pos hc2]
        have himid : i < q := by
          rcases Nat.lt_or_ge i q with hlt | hge
          · omega
          · exfalso
            have hmono : totalDuration (msgs.take q) ≤ totalDuration (msgs.take i) :=
              totalDuration_take_mono msgs hd (by omega) (by omega)
            linarith
        exact ih l ((l + r) / 2 - 1) hl (by omega) hli (by omega) (by omega)
      · rw [if_neg hc2]
        have ht3 : totalDuration (msgs.take (q + 1)) ≤ t := by
          rcases not_and_or.mp hc1 with h' | h'
          · exact absurd (not_lt.mp hc2) h'
          · exact not_lt.mp h'
        have himid : q < i := by
          rcases Nat.lt_or_ge q i with hlt | hge
          · omega
          · exfalso
            have hmono : totalDuration (msgs.take (i + 1)) ≤ totalDuration (msgs.take (q + 1)) :=
              totalDuration_take_mono msgs hd (by omega) (by omega)
            linarith
        exact ih ((l + r) / 2 + 1) r (by omega) hr (by omega) hir (by omega)

/-- Claim C1 (corrected): when every resolved duration is positive, the
round trip `getMessageIndexFromTime ∘ getTimeFromMessageIndex` is the
identity on indices 1 ≤ i ≤ N−1; at i = 0 it returns −1 (the `time <= 0`
guard fires on the start time 0), as the counterexample shows. -/
theorem claim1_roundtrip_of_pos (msgs : List Message)
    (hd : ∀ m ∈ msgs, 0 < calculateMessageDuration m) (i : ℕ)
    (h1 : 1 ≤ i) (h2 : i < msgs.length) :
    getMessageIndexFromTime msgs (getTimeFromMessageIndex msgs (i : ℤ)) = (i : ℤ) := by
  have hd0 : ∀ m ∈ msgs, 0 ≤ calculateMessageDuration m := fun m hm => (hd m hm).le
  have hlen : (segments msgs).length = msgs.length := segmentsFrom_length msgs 0 0
  have htime : getTimeFromMessageIndex msgs (i : ℤ) = totalDuration (msgs.take i) := by
    unfold getTimeFromMessageIndex
    have hc1 : ¬((i : ℤ) < 0) := by omega
    have hc2 : ¬(((segments msgs).length : ℤ) ≤ (i : ℤ)) := by
      rw [hlen]; exact_mod_cast not_le.mpr (by exact_mod_cast h2)
    rw [if_neg hc1, if_neg hc2]
    rw [show ((i : ℤ)).toNat = i from by omega]
    rw [segments_getD msgs i h2]
  rw [htime]
  have hP0 : totalDuration (msgs.take 0) = 0 := by simp [totalDuration]
  have hpos : 0 < totalDuration (msgs.take i) := by
    have := totalDuration_take_strict_mono msgs hd (a := 0) (b := i) (by omega) (by omega)
    linarith [hP0 ▸ this]
  have htot : totalDuration (msgs.take i) < totalDuration msgs := by
    have := totalDuration_take_strict_mono msgs hd (a := i) (b := msgs.length)
      (by omega) (le_refl _)
    rwa [List.take_length] at this
  have hnext : totalDuration (msgs.take i) < totalDuration (msgs.take (i + 1)) :=
    totalDuration_take_strict_mono msgs hd (by omega) (by omega)
  unfold getMessageIndexFromTime
  have hg1 : ¬(totalDuration (msgs.take i) ≤ 0) := by linarith
  have hg2 : ¬(totalDuration msgs ≤ totalDuration (msgs.take i)) := by linarith
  rw [if_neg hg1, if_neg hg2]
  rw [bsearchLoop_correct msgs hd0 (totalDuration (msgs.take i)) i h2 (le_refl _) hnext
    ((segments msgs).length + 1) 0 (((segments msgs).length : ℤ) - 1)
    (by omega) (by omega) (by omega) (by omega) (by omega)]

/-- Witness for the corrected C1: on a two-text-message list (durations
2000 ms each, all positive), the round trip at index 1 returns 1. -/
theorem claim1_roundtrip_of_pos_witness :
    getMessageIndexFromTime [textMsg10, textMsg10]
      (getTimeFromMessageIndex [textMsg10, textMsg10] 1) = 1 := by
  have hd : ∀ m ∈ [textMsg10, textMsg10], 0 < calculateMessageDuration m := by
    intro m hm
    have h2000 : calculateMessageDuration textMsg10 = 2000 := by
      with_unfolding_all rfl
    rcases List.mem_pair.mp hm with rfl | rfl <;> rw [h2000] <;> norm_num
  exact claim1_roundtrip_of_pos [textMsg10, textMsg10] hd 1 (by omega) (by simp)

end TimelineCalculator

end FakeWeChat
